import Mathlib

/-!
Verification development for the Everlyn-AR repository.

The two source files are modelled by a shallow embedding:

* `src/OmniTokenizer/lm_transformer.py` — `Net2NetTransformer.forward` and
  `Net2NetTransformer.sample`.  A batch is processed row-wise and all rows
  are independent, so sequences are modelled as `List ℤ` (one batch row of
  token indices).  Random draws (`random.random()`, `torch.bernoulli`,
  `torch.randint_like`, `torch.multinomial`) are passed in as explicit
  realizations.  A transformer call returns one logit row per input
  position, so logit positions are modelled by the list of input positions.

* `src/videoAR/data/dataset_image_video.py` — `ImageVideoSampler.__iter__`,
  `ImageVideoDataset.__init__`, `get_batch` and `__getitem__`.  Python
  float arithmetic on the default drop ratios (`0.1`, `0.9`, and their
  difference `0.8`) is modelled by exact rational arithmetic, i.e.
  `int(0.9 * n)` becomes `9 * n / 10` in `Nat`.
-/

namespace Everlyn

/-- Python slice `l[i:]`, including negative start indices:
for `i < 0` the start position is `max 0 (l.length + i)`. -/
def pySliceFrom {α : Type} (l : List α) (i : ℤ) : List α :=
  if 0 ≤ i then l.drop i.toNat else l.drop ((l.length : ℤ) + i).toNat

lemma pySliceFrom_length_of_nonneg {α : Type} (l : List α) (i : ℤ) (h : 0 ≤ i) :
    (pySliceFrom l i).length = l.length - i.toNat := by
  simp [pySliceFrom, h]

/-- The fields of `Net2NetTransformer` that its `forward` method reads. -/
structure TransformerCfg where
  startsWithSos : Bool
  classFirst : Bool
  pDropCond : Option ℚ
  condStageVocabSize : ℤ
  sosToken : ℤ
  pkeep : ℚ

/-- Modelled from the spec: `SOSProvider` lives in
`OmniTokenizer/modules/encoders.py`, which is not among the sources.  Per
the spec (and the code's own log message "Prepending {sos_token} as a sos
token"), it encodes every batch row to the single start-of-sequence token
it was constructed with. -/
def sosProviderEncode (sosToken : ℤ) : List ℤ := [sosToken]

/-- `c_indices = c_indices + 1` when `starts_with_sos` (lm_transformer.py:147). -/
def shiftedC (cfg : TransformerCfg) (c : List ℤ) : List ℤ :=
  if cfg.startsWithSos then c.map (fun t => t + 1) else c

/-- `z_indices` shift (lm_transformer.py:148 and :150): by
`cond_stage_vocab_size + 1` when `starts_with_sos`, else by
`cond_stage_vocab_size`. -/
def shiftedZ (cfg : TransformerCfg) (z : List ℤ) : List ℤ :=
  if cfg.startsWithSos then z.map (fun t => t + (cfg.condStageVocabSize + 1))
  else z.map (fun t => t + cfg.condStageVocabSize)

/-- Training-time corruption (lm_transformer.py:152-159):
`a_indices = mask*z_indices + (1-mask)*r_indices` when
`self.training and self.pkeep < 1.0`, else `a_indices = z_indices`.
`mask` is the realization of `torch.bernoulli(pkeep * ones)` (entries 0/1)
and `r` the realization of `torch.randint_like(z, vocab_size)`. -/
def corruptIndices (training : Bool) (cfg : TransformerCfg) (mask r z : List ℤ) : List ℤ :=
  if training = true ∧ cfg.pkeep < 1 then
    List.zipWith (fun (m : ℤ) (p : ℤ × ℤ) => m * p.1 + (1 - m) * p.2) mask (z.zip r)
  else z

/-- The condition-drop decision (lm_transformer.py:164-165): the condition
is kept when `random.random() > self.p_drop_cond`; `u` is the realization
of `random.random()`.  With `p_drop_cond = None` the drop test is never
made. -/
def dropsCond (cfg : TransformerCfg) (u : ℚ) : Bool :=
  match cfg.pDropCond with
  | none => false
  | some p => !(decide (p < u))

/-- Sequence assembly of `forward` (lm_transformer.py:163-184): returns
`(cz_indices, prefix_len)` for one batch row, mirroring the branch
structure of the code (`p_drop_cond is not None` test, then the random
drop test, then `class_first`). -/
def spliceForward (cfg : TransformerCfg) (c a : List ℤ) (u : ℚ) : List ℤ × ℤ :=
  if cfg.startsWithSos then
    if cfg.pDropCond.isSome then
      if dropsCond cfg u then
        (c ++ a, (c.length : ℤ) - 1)
      else if cfg.classFirst then
        (c ++ sosProviderEncode cfg.sosToken ++ a, 1 + (c.length : ℤ) - 1)
      else
        (sosProviderEncode cfg.sosToken ++ c ++ a, 1 + (c.length : ℤ) - 1)
    else
      if cfg.classFirst then
        (c ++ sosProviderEncode cfg.sosToken ++ a, 1 + (c.length : ℤ) - 1)
      else
        (sosProviderEncode cfg.sosToken ++ c ++ a, 1 + (c.length : ℤ) - 1)
  else (c ++ a, (c.length : ℤ) - 1)

/-- `Net2NetTransformer.forward` on one batch row (lm_transformer.py:139-195):
returns `(cz_indices, prefix_len, target)`. -/
def forwardModel (cfg : TransformerCfg) (training : Bool) (c z mask r : List ℤ) (u : ℚ) :
    List ℤ × ℤ × List ℤ :=
  let cI := shiftedC cfg c
  let zI := shiftedZ cfg z
  let a := corruptIndices training cfg mask r zI
  let s := spliceForward cfg cI a u
  (s.1, s.2, zI)

/-- The logit positions that survive the prefix cut
(lm_transformer.py:190-192): the transformer is run on
`cz_indices[:, :-1]` (one logit per input position) and then
`logits[:, prefix_len:]` is kept. -/
def forwardLogitsPositions (cz : List ℤ) (prefLen : ℤ) : List ℤ :=
  pySliceFrom cz.dropLast prefLen

lemma corruptIndices_length (training : Bool) (cfg : TransformerCfg) (mask r z : List ℤ)
    (hm : mask.length = z.length) (hr : r.length = z.length) :
    (corruptIndices training cfg mask r z).length = z.length := by
  unfold corruptIndices
  split
  · simp [hm, hr]
  · rfl

lemma shiftedC_length (cfg : TransformerCfg) (c : List ℤ) :
    (shiftedC cfg c).length = c.length := by
  unfold shiftedC; split <;> simp

lemma shiftedZ_length (cfg : TransformerCfg) (z : List ℤ) :
    (shiftedZ cfg z).length = z.length := by
  unfold shiftedZ; split <;> simp

/-- C1: the three splice cases of `Net2NetTransformer.forward` (evaluation
path, where `a_indices = z_indices`): without `starts_with_sos` the input is
`[c_indices, z_indices + cond_stage_vocab_size]` with
`prefix_len = len(c_indices) - 1`; with `starts_with_sos` and the condition
kept, `c_indices` are shifted by `+1`, `z_indices` by
`cond_stage_vocab_size + 1`, the input is `[c_indices, sos, z_indices]`
when `class_first` and `[sos, c_indices, z_indices]` otherwise, with
`prefix_len = len(c_indices)`; with `starts_with_sos`, `p_drop_cond` set
and the condition dropped, the input is `[c_indices, z_indices]` (same
shifts) with `prefix_len = len(c_indices) - 1`. -/
theorem C1_forward_splice (cfg : TransformerCfg) (c z mask r : List ℤ) (u : ℚ) :
    (cfg.startsWithSos = false →
      forwardModel cfg false c z mask r u =
        (c ++ z.map (fun t => t + cfg.condStageVocabSize), (c.length : ℤ) - 1,
          z.map (fun t => t + cfg.condStageVocabSize))) ∧
    (cfg.startsWithSos = true → dropsCond cfg u = false →
      (forwardModel cfg false c z mask r u).1 =
        (if cfg.classFirst then
          c.map (fun t => t + 1) ++ [cfg.sosToken]
            ++ z.map (fun t => t + (cfg.condStageVocabSize + 1))
        else [cfg.sosToken] ++ c.map (fun t => t + 1)
            ++ z.map (fun t => t + (cfg.condStageVocabSize + 1))) ∧
      (forwardModel cfg false c z mask r u).2.1 = (c.length : ℤ)) ∧
    (cfg.startsWithSos = true → cfg.pDropCond.isSome = true → dropsCond cfg u = true →
      forwardModel cfg false c z mask r u =
        (c.map (fun t => t + 1) ++ z.map (fun t => t + (cfg.condStageVocabSize + 1)),
          (c.length : ℤ) - 1,
          z.map (fun t => t + (cfg.condStageVocabSize + 1)))) := by
  refine ⟨fun hsos => ?_, fun hsos hkeep => ?_, fun hsos hsome hdrop => ?_⟩
  · simp [forwardModel, shiftedC, shiftedZ, corruptIndices, spliceForward, hsos]
  · have hI : cfg.pDropCond.isSome = true ∨ cfg.pDropCond.isSome = false := by
      cases cfg.pDropCond <;> simp
    rcases hI with hI | hI <;>
      rcases hcf : cfg.classFirst with _ | _ <;>
      simp [forwardModel, shiftedC, shiftedZ, corruptIndices, spliceForward,
        sosProviderEncode, hsos, hkeep, hI, hcf]
  · rcases hcf : cfg.classFirst with _ | _ <;>
      simp [forwardModel, shiftedC, shiftedZ, corruptIndices, spliceForward,
        sosProviderEncode, hsos, hsome, hdrop, hcf]

/-- Witness for C1 at a concrete configuration. -/
theorem C1_forward_splice_witness :
    ({ startsWithSos := false, classFirst := false, pDropCond := none,
       condStageVocabSize := 5, sosToken := 0, pkeep := 1 } : TransformerCfg).startsWithSos
        = false ∧
    forwardModel
      { startsWithSos := false, classFirst := false, pDropCond := none,
        condStageVocabSize := 5, sosToken := 0, pkeep := 1 }
      false [9] [2, 3] [] [] 0 =
      ([9] ++ [2, 3].map (fun t => t + 5), (1 : ℤ) - 1, [2, 3].map (fun t => t + 5)) :=
  ⟨rfl,
    (C1_forward_splice
      { startsWithSos := false, classFirst := false, pDropCond := none,
        condStageVocabSize := 5, sosToken := 0, pkeep := 1 }
      [9] [2, 3] [] [] 0).1 rfl⟩

/-- C2: the assertion `logits.shape[1] == target.shape[1]` at the end of
`forward` holds for every combination of `starts_with_sos`, `class_first`
and condition dropping, for every training/corruption realization, and for
every nonempty conditioning sequence: after running the transformer on
`cz_indices[:, :-1]` and discarding the first `prefix_len` positions,
exactly `len(z_indices)` logit positions remain. -/
theorem C2_forward_assert_holds (cfg : TransformerCfg) (training : Bool)
    (c z mask r : List ℤ) (u : ℚ)
    (hc : 1 ≤ c.length) (hm : mask.length = z.length) (hr : r.length = z.length) :
    (forwardLogitsPositions (forwardModel cfg training c z mask r u).1
      (forwardModel cfg training c z mask r u).2.1).length =
    (forwardModel cfg training c z mask r u).2.2.length := by
  have hmz : mask.length = (shiftedZ cfg z).length := by rw [shiftedZ_length]; exact hm
  have hrz : r.length = (shiftedZ cfg z).length := by rw [shiftedZ_length]; exact hr
  have ha : (corruptIndices training cfg mask r (shiftedZ cfg z)).length = z.length := by
    rw [corruptIndices_length training cfg mask r _ hmz hrz, shiftedZ_length]
  have hcl : (shiftedC cfg c).length = c.length := shiftedC_length cfg c
  unfold forwardModel
  simp only [forwardLogitsPositions, shiftedZ_length]
  unfold spliceForward
  split
  · split
    · split
      · rw [pySliceFrom_length_of_nonneg _ _ (by omega)]
        simp only [List.length_dropLast, List.length_append, hcl, ha]
        omega
      · split <;>
        · rw [pySliceFrom_length_of_nonneg _ _ (by omega)]
          simp only [List.length_dropLast, List.length_append, hcl, ha, sosProviderEncode,
            List.length_cons, List.length_nil]
          omega
    · split <;>
      · rw [pySliceFrom_length_of_nonneg _ _ (by omega)]
        simp only [List.length_dropLast, List.length_append, hcl, ha, sosProviderEncode,
          List.length_cons, List.length_nil]
        omega
  · rw [pySliceFrom_length_of_nonneg _ _ (by omega)]
    simp only [List.length_dropLast, List.length_append, hcl, ha]
    omega

/-- Witness for C2 at a concrete configuration. -/
theorem C2_forward_assert_holds_witness :
    (1 ≤ ([4] : List ℤ).length ∧ ([1] : List ℤ).length = ([7] : List ℤ).length ∧
      ([0] : List ℤ).length = ([7] : List ℤ).length) ∧
    (forwardLogitsPositions
      (forwardModel
        { startsWithSos := true, classFirst := false, pDropCond := some (1/2),
          condStageVocabSize := 3, sosToken := 0, pkeep := 1/2 }
        true [4] [7] [1] [0] (1/4)).1
      (forwardModel
        { startsWithSos := true, classFirst := false, pDropCond := some (1/2),
          condStageVocabSize := 3, sosToken := 0, pkeep := 1/2 }
        true [4] [7] [1] [0] (1/4)).2.1).length =
    (forwardModel
      { startsWithSos := true, classFirst := false, pDropCond := some (1/2),
        condStageVocabSize := 3, sosToken := 0, pkeep := 1/2 }
      true [4] [7] [1] [0] (1/4)).2.2.length :=
  ⟨⟨by decide, by decide, by decide⟩,
    C2_forward_assert_holds
      { startsWithSos := true, classFirst := false, pDropCond := some (1/2),
        condStageVocabSize := 3, sosToken := 0, pkeep := 1/2 }
      true [4] [7] [1] [0] (1/4) (by decide) (by decide) (by decide)⟩

lemma zipWith_keep_replace (mask : List ℤ) (pr : List (ℤ × ℤ))
    (hmask : ∀ m ∈ mask, m = 0 ∨ m = 1) :
    List.zipWith (fun (m : ℤ) (p : ℤ × ℤ) => m * p.1 + (1 - m) * p.2) mask pr =
    List.zipWith (fun (m : ℤ) (p : ℤ × ℤ) => if m = 1 then p.1 else p.2) mask pr := by
  induction mask generalizing pr with
  | nil => simp
  | cons m ms ih =>
    cases pr with
    | nil => simp
    | cons p ps =>
      have hm := hmask m (List.mem_cons_self m ms)
      have hrest : ∀ m' ∈ ms, m' = 0 ∨ m' = 1 := fun m' h' =>
        hmask m' (List.mem_cons_of_mem _ h')
      simp only [List.zipWith_cons_cons, ih ps hrest]
      rcases hm with hm | hm <;> subst hm <;> simp

/-- C7: in training with `pkeep < 1`, the corrupted sequence fed to the
transformer keeps each (shifted) visual token where the Bernoulli mask is
1 and replaces it by the corresponding random vocabulary token where the
mask is 0; and the returned target is always the uncorrupted shifted
`z_indices`, for every realization of the mask and replacement tokens. -/
theorem C7_training_corruption (cfg : TransformerCfg) (c z mask r : List ℤ) (u : ℚ)
    (hpk : cfg.pkeep < 1) (hmask : ∀ m ∈ mask, m = 0 ∨ m = 1) :
    corruptIndices true cfg mask r (shiftedZ cfg z) =
      List.zipWith (fun (m : ℤ) (p : ℤ × ℤ) => if m = 1 then p.1 else p.2) mask
        ((shiftedZ cfg z).zip r) ∧
    (forwardModel cfg true c z mask r u).2.2 = shiftedZ cfg z := by
  constructor
  · unfold corruptIndices
    rw [if_pos ⟨rfl, hpk⟩]
    exact zipWith_keep_replace mask _ hmask
  · rfl

/-- Witness for C7 at a concrete configuration. -/
theorem C7_training_corruption_witness :
    (({ startsWithSos := false, classFirst := false, pDropCond := none,
        condStageVocabSize := 2, sosToken := 0, pkeep := 1/2 } : TransformerCfg).pkeep < 1 ∧
      ∀ m ∈ ([1, 0] : List ℤ), m = 0 ∨ m = 1) ∧
    (corruptIndices true
      { startsWithSos := false, classFirst := false, pDropCond := none,
        condStageVocabSize := 2, sosToken := 0, pkeep := 1/2 }
      [1, 0] [9, 9]
      (shiftedZ
        { startsWithSos := false, classFirst := false, pDropCond := none,
          condStageVocabSize := 2, sosToken := 0, pkeep := 1/2 } [5, 6]) =
      List.zipWith (fun (m : ℤ) (p : ℤ × ℤ) => if m = 1 then p.1 else p.2) [1, 0]
        ((shiftedZ
          { startsWithSos := false, classFirst := false, pDropCond := none,
            condStageVocabSize := 2, sosToken := 0, pkeep := 1/2 } [5, 6]).zip [9, 9]) ∧
      (forwardModel
        { startsWithSos := false, classFirst := false, pDropCond := none,
          condStageVocabSize := 2, sosToken := 0, pkeep := 1/2 }
        true [3] [5, 6] [1, 0] [9, 9] 0).2.2 =
        shiftedZ
          { startsWithSos := false, classFirst := false, pDropCond := none,
            condStageVocabSize := 2, sosToken := 0, pkeep := 1/2 } [5, 6]) :=
  ⟨⟨by norm_num, by decide⟩,
    C7_training_corruption
      { startsWithSos := false, classFirst := false, pDropCond := none,
        condStageVocabSize := 2, sosToken := 0, pkeep := 1/2 }
      [3] [5, 6] [1, 0] [9, 9] 0 (by norm_num) (by decide)⟩

/-- The token-by-token loop of `Net2NetTransformer.sample`
(lm_transformer.py:236-255), `pkeep > 0` branch, on one batch row.  Each
iteration asserts `x.size(1) <= block_size` (modelled by returning `none`
when the assert fails — the subsequent crop of `x_cond` is then dead code,
so the sampled token is a function `pick` of the current sequence) and
appends the one sampled token to the sequence. -/
def sampleLoopTokens (pick : List ℤ → ℤ) (blockSize : Nat) :
    Nat → List ℤ → Option (List ℤ)
  | 0, x => some x
  | steps + 1, x =>
    if x.length ≤ blockSize then
      sampleLoopTokens pick blockSize steps (x ++ [pick x])
    else none

/-- `Net2NetTransformer.sample` (lm_transformer.py:203-258) on one batch
row: `x = cat((c, x))`; with `pkeep <= 0` a single pass is made over
`x ++ noise` where `noise = c[:, x.shape[1]-c.shape[1]:-1]`, one token is
sampled per position (`sampleIx`, one output per input position), and
`ix[:, c.shape[1]-1:]` is returned; with `pkeep > 0` the loop appends
`steps` tokens and `x[:, c.shape[1]:]` is returned. -/
def sampleModel (pkeep : ℚ) (blockSize : Nat) (pick : List ℤ → ℤ)
    (sampleIx : List ℤ → List ℤ) (x0 c : List ℤ) (steps : Nat) : Option (List ℤ) :=
  let x := c ++ x0
  if pkeep ≤ 0 then
    let noise := c.dropLast.drop x0.length
    let x1 := x ++ noise
    let ix := sampleIx x1
    some (pySliceFrom ix ((c.length : ℤ) - 1))
  else
    (sampleLoopTokens pick blockSize steps x).map (fun xf => xf.drop c.length)

lemma sampleLoopTokens_length (pick : List ℤ → ℤ) (bs : Nat) :
    ∀ (steps : Nat) (x y : List ℤ),
      sampleLoopTokens pick bs steps x = some y → y.length = x.length + steps := by
  intro steps
  induction steps with
  | zero => intro x y h; simp [sampleLoopTokens] at h; simp [h]
  | succ n ih =>
    intro x y h
    unfold sampleLoopTokens at h
    split at h
    · have := ih (x ++ [pick x]) y h
      simp at this
      omega
    · cases h

lemma sampleLoopTokens_isSome (pick : List ℤ → ℤ) (bs : Nat) :
    ∀ (steps : Nat) (x : List ℤ), x.length + steps ≤ bs + 1 →
      ∃ y, sampleLoopTokens pick bs steps x = some y := by
  intro steps
  induction steps with
  | zero => intro x _; exact ⟨x, rfl⟩
  | succ n ih =>
    intro x h
    unfold sampleLoopTokens
    rw [if_pos (by omega)]
    exact ih (x ++ [pick x]) (by simp; omega)

/-- C3 (amended): `sample` proceeds token-by-token and strips the
conditioning.  With `pkeep > 0` and the sequence staying within
`block_size` (`Lc + Lx + steps - 1 <= block_size`), each iteration appends
exactly one sampled token, the loop runs exactly `steps` iterations, and
the returned `x[:, c.shape[1]:]` has exactly `Lx + steps` positions.  With
`pkeep <= 0` the returned `ix[:, c.shape[1]-1:]` has
`Lx + 1 + max(0, Lc - 1 - Lx)` positions — not `Lx + steps` in general. -/
theorem C3_sample_lengths (pkeep : ℚ) (bs : Nat) (pick : List ℤ → ℤ)
    (sampleIx : List ℤ → List ℤ) (x0 c : List ℤ) (steps : Nat)
    (hIx : ∀ l, (sampleIx l).length = l.length) (hc : 1 ≤ c.length) :
    (∀ (k : Nat) (x : List ℤ), x.length ≤ bs →
      sampleLoopTokens pick bs (k + 1) x = sampleLoopTokens pick bs k (x ++ [pick x])) ∧
    (0 < pkeep → c.length + x0.length + steps ≤ bs + 1 →
      ∃ y, sampleModel pkeep bs pick sampleIx x0 c steps = some y ∧
        y.length = x0.length + steps) ∧
    (pkeep ≤ 0 →
      ∃ y, sampleModel pkeep bs pick sampleIx x0 c steps = some y ∧
        y.length = x0.length + 1 + (c.length - 1 - x0.length)) := by
  refine ⟨fun k x hx => ?_, fun hpk hblock => ?_, fun hpk => ?_⟩
  · unfold sampleLoopTokens
    rw [if_pos hx]
    cases k <;> rfl
  · have hnot : ¬ pkeep ≤ 0 := not_le.mpr hpk
    obtain ⟨y, hy⟩ := sampleLoopTokens_isSome pick bs steps (c ++ x0) (by simp; omega)
    have hlen := sampleLoopTokens_length pick bs steps (c ++ x0) y hy
    refine ⟨y.drop c.length, ?_, ?_⟩
    · simp [sampleModel, if_neg hnot, hy]
    · simp only [List.length_drop, hlen, List.length_append]
      omega
  · refine ⟨pySliceFrom (sampleIx (c ++ x0 ++ c.dropLast.drop x0.length))
      ((c.length : ℤ) - 1), ?_, ?_⟩
    · simp only [sampleModel, if_pos hpk]
    · rw [pySliceFrom_length_of_nonneg _ _ (by omega)]
      simp only [hIx, List.length_append, List.length_drop, List.length_dropLast]
      omega

/-- Witness for C3 (amended) at a concrete configuration. -/
theorem C3_sample_lengths_witness :
    ((∀ l : List ℤ, (id l).length = l.length) ∧ 1 ≤ ([5, 6] : List ℤ).length ∧
      (0 : ℚ) < 1 ∧ ([5, 6] : List ℤ).length + ([7] : List ℤ).length + 3 ≤ 10 + 1) ∧
    (∃ y, sampleModel 1 10 (fun _ => 0) id [7] [5, 6] 3 = some y ∧
      y.length = ([7] : List ℤ).length + 3) :=
  ⟨⟨fun l => rfl, by decide, by norm_num, by decide⟩,
    (C3_sample_lengths 1 10 (fun _ => 0) id [7] [5, 6] 3
      (fun l => rfl) (by decide)).2.1 (by norm_num) (by decide)⟩

/-- C3 counterexample: with `pkeep = 0`, `c = [5]` (`Lc = 1`), `x` empty
(`Lx = 0`) and `steps = 2`, the `pkeep <= 0` branch returns a sequence of
1 position, not `Lx + steps = 2` as the claim states. -/
theorem C3_sample_counterexample :
    (sampleModel 0 10 (fun _ => 0) id [] [5] 2).map List.length = some 1 ∧
    (1 : Nat) ≠ 0 + 2 := by
  constructor
  · norm_num [sampleModel, pySliceFrom]
  · decide

/-- `starts_with_sos` after `__init__` (lm_transformer.py:55 and :60-61):
`args.starts_with_sos`, forced to `False` when `args.unconditional`. -/
def initStartsWithSos (argsUnconditional argsStartsWithSos : Bool) : Bool :=
  if argsUnconditional then false else argsStartsWithSos

/-- The conditioning stage chosen by `init_cond_stage_from_ckpt`
(lm_transformer.py:110-137). -/
inductive CondStage
  | labelator (nClasses : ℤ)
  | stftVqgan
  | identity
  | sosProvider (sosToken : ℤ)
deriving DecidableEq

/-- `cond_stage_model` set by `init_cond_stage_from_ckpt`, mirroring the
branch order of the code (`none` models the final branch, which constructs
a `ValueError` without raising it and leaves the field unset). -/
def initCondStageModel (beUnconditional : Bool) (condStageKey : String)
    (classCondDim sosToken : ℤ) : Option CondStage :=
  if condStageKey == "label" && !beUnconditional then some (CondStage.labelator classCondDim)
  else if condStageKey == "stft" then some CondStage.stftVqgan
  else if condStageKey == "text" then some CondStage.identity
  else if beUnconditional then some (CondStage.sosProvider sosToken)
  else none

/-- `cond_stage_vocab_size` set by `init_cond_stage_from_ckpt`
(lm_transformer.py:110-137); `stftNCodes` stands for
`cond_stage_model.codebook.n_codes` of the stft VQ-GAN. -/
def initCondStageVocabSize (beUnconditional : Bool) (condStageKey : String)
    (classCondDim stftNCodes : ℤ) : Option ℤ :=
  if condStageKey == "label" && !beUnconditional then some classCondDim
  else if condStageKey == "stft" then some stftNCodes
  else if condStageKey == "text" then some (49408 : ℤ)
  else if beUnconditional then some 0
  else none

/-- C8 counterexample: with `args.unconditional = True` but
`cond_stage_key = 'stft'`, the stft branch of
`init_cond_stage_from_ckpt` wins: the conditioning stage is the stft
VQ-GAN (not `SOSProvider`) and `cond_stage_vocab_size` is its codebook
size (here 1024), not 0. -/
theorem C8_unconditional_counterexample :
    initCondStageModel true "stft" 10 7 = some CondStage.stftVqgan ∧
    initCondStageModel true "stft" 10 7 ≠ some (CondStage.sosProvider 7) ∧
    initCondStageVocabSize true "stft" 10 1024 = some 1024 ∧
    initCondStageVocabSize true "stft" 10 1024 ≠ some 0 := by
  refine ⟨rfl, ?_, rfl, ?_⟩ <;> decide

/-- C8 (amended): when `args.unconditional` is true, `starts_with_sos` is
always forced to `False`; when additionally `cond_stage_key` is neither
`'stft'` nor `'text'` (in particular for the default `'label'`), the
conditioning stage is `SOSProvider(sos_token)` with
`cond_stage_vocab_size = 0`, and `forward` splices the sequence as
`[sos_token, z_indices]` with `z_indices` unshifted and `prefix_len = 0`. -/
theorem C8_unconditional_amended (argsStartsWithSos classFirst : Bool)
    (pD : Option ℚ) (pk : ℚ) (sos dim n : ℤ) (key : String)
    (z mask r : List ℤ) (u : ℚ)
    (hk1 : key ≠ "stft") (hk2 : key ≠ "text") :
    initStartsWithSos true argsStartsWithSos = false ∧
    initCondStageModel true key dim sos = some (CondStage.sosProvider sos) ∧
    initCondStageVocabSize true key dim n = some 0 ∧
    forwardModel
      { startsWithSos := initStartsWithSos true argsStartsWithSos,
        classFirst := classFirst, pDropCond := pD, condStageVocabSize := 0,
        sosToken := sos, pkeep := pk }
      false (sosProviderEncode sos) z mask r u = (sos :: z, 0, z) := by
  have hb1 : (key == "stft") = false := beq_eq_false_iff_ne.mpr hk1
  have hb2 : (key == "text") = false := beq_eq_false_iff_ne.mpr hk2
  refine ⟨rfl, ?_, ?_, ?_⟩
  · simp [initCondStageModel, hb1, hb2]
  · simp [initCondStageVocabSize, hb1, hb2]
  · simp [forwardModel, initStartsWithSos, shiftedC, shiftedZ, corruptIndices,
      spliceForward, sosProviderEncode]

/-- Witness for C8 (amended) with the default `cond_stage_key = 'label'`. -/
theorem C8_unconditional_amended_witness :
    (("label" : String) ≠ "stft" ∧ ("label" : String) ≠ "text") ∧
    (initStartsWithSos true true = false ∧
      initCondStageModel true "label" 10 7 = some (CondStage.sosProvider 7) ∧
      initCondStageVocabSize true "label" 10 42 = some 0 ∧
      forwardModel
        { startsWithSos := initStartsWithSos true true, classFirst := false,
          pDropCond := none, condStageVocabSize := 0, sosToken := 7, pkeep := 1 }
        false (sosProviderEncode 7) [2, 3] [] [] 0 = (7 :: [2, 3], 0, [2, 3])) :=
  ⟨⟨by decide, by decide⟩,
    C8_unconditional_amended true false none 1 7 10 42 "label" [2, 3] [] [] 0
      (by decide) (by decide)⟩

/-- An annotation entry of `ImageVideoDataset`; only the `'type'` key
matters for dataset assembly and bucketing, read as
`data.get('type', 'image')` (absent key defaults to `'image'`). -/
structure AnnEntry where
  ty : Option String
deriving DecidableEq

/-- `data.get('type', 'image')`. -/
def entryType (e : AnnEntry) : String := e.ty.getD "image"

/-- The `video_repeat` passes over the video entries
(dataset_image_video.py:124-128): each pass appends every video entry of
the annotation list, in order. -/
def videoPasses (vids : List AnnEntry) : Nat → List AnnEntry
  | 0 => []
  | n + 1 => videoPasses vids n ++ vids

/-- `ImageVideoDataset.__init__`'s entry list
(dataset_image_video.py:119-129): all non-video entries once, then
`video_repeat` full passes over the video entries. -/
def buildDataset (ds : List AnnEntry) (videoRepeat : Nat) : List AnnEntry :=
  ds.filter (fun e => !(entryType e == "video")) ++
    videoPasses (ds.filter (fun e => entryType e == "video")) videoRepeat

lemma videoPasses_length (vids : List AnnEntry) :
    ∀ n : Nat, (videoPasses vids n).length = n * vids.length := by
  intro n
  induction n with
  | zero => simp [videoPasses]
  | succ k ih => simp [videoPasses, ih]; ring

/-- C9: `len(self.dataset) = n_non_video + video_repeat * n_video`, and
with the default `video_repeat = 0` every video entry is discarded, leaving
exactly the non-video entries. -/
theorem C9_build_dataset (ds : List AnnEntry) (videoRepeat : Nat) :
    (buildDataset ds videoRepeat).length =
      (ds.filter (fun e => !(entryType e == "video"))).length +
        videoRepeat * (ds.filter (fun e => entryType e == "video")).length ∧
    buildDataset ds 0 = ds.filter (fun e => !(entryType e == "video")) := by
  constructor
  · simp [buildDataset, videoPasses_length]
  · simp [buildDataset, videoPasses]

/-- `video_length = int(drop_end * len(video_reader))` with the default
`video_length_drop_end = 0.9` (dataset_image_video.py:200); Python float
arithmetic modelled exactly over the rationals, `int` truncation of a
nonnegative value is `Nat` division. -/
def videoLength (n : Nat) : Nat := 9 * n / 10

/-- `min_sample_n_frames = min(video_sample_n_frames, int(len(video_reader)
* (drop_end - drop_start)))` with the defaults `0.9 - 0.1 = 0.8`
(dataset_image_video.py:193-196). -/
def minSampleNFrames (videoSampleNFrames n : Nat) : Nat :=
  min videoSampleNFrames (8 * n / 10)

/-- `clip_length = min(video_length, (min_sample_n_frames - 1) *
video_sample_stride + 1)` (dataset_image_video.py:201). -/
def clipLength (stride msnf vl : Nat) : Nat := min vl ((msnf - 1) * stride + 1)

/-- `int(video_length_drop_start * video_length)` with the default `0.1`:
the lower end of the `random.randint` range for `start_idx`
(dataset_image_video.py:207). -/
def startIdxLow (vl : Nat) : Nat := vl / 10

/-- `start_idx_end = max(int(drop_start * video_length), video_length -
clip_length)` (dataset_image_video.py:206). -/
def startIdxHigh (vl cl : Nat) : Nat := max (vl / 10) (vl - cl)

/-- Entry `i` of `np.linspace(a, b, num, dtype=int)` for `a <= b`
(dataset_image_video.py:208), modelled exactly over the rationals:
`a + i * (b - a) / (num - 1)` truncated to an integer (`[a]` when
`num = 1`). -/
def linspaceVal (a b num i : Nat) : Nat :=
  if num ≤ 1 then a else a + i * (b - a) / (num - 1)

lemma linspaceVal_le (a b num i : Nat) (hab : a ≤ b) (hi : i < num) :
    linspaceVal a b num i ≤ b := by
  unfold linspaceVal
  split
  · exact hab
  · rename_i h
    have h2 : i * (b - a) ≤ (num - 1) * (b - a) :=
      Nat.mul_le_mul_right _ (by omega)
    have h3 : i * (b - a) / (num - 1) ≤ (num - 1) * (b - a) / (num - 1) :=
      Nat.div_le_div_right h2
    have h4 : (num - 1) * (b - a) / (num - 1) = b - a :=
      Nat.mul_div_cancel_left _ (by omega)
    omega

/-- C10: for a video entry that passes `get_batch`'s length checks, with the
default drop ratios, every entry of
`np.linspace(start_idx, start_idx + clip_length - 1, min_sample_n_frames)`
lies within `[0, len(video_reader) - 1]` (the lower bound is inherent to
`Nat`), for every admissible `random.randint` realization of `start_idx`;
so `video_reader.get_batch` never indexes past the end of the video. -/
theorem C10_linspace_in_bounds (n stride vsnf startIdx i : Nat)
    (hmsnf : 0 < minSampleNFrames vsnf n)
    (hclip : clipLength stride (minSampleNFrames vsnf n) (videoLength n) ≤ videoLength n)
    (hvsnf : vsnf ≤ videoLength n)
    (hlow : startIdxLow (videoLength n) ≤ startIdx)
    (hhigh : startIdx ≤ startIdxHigh (videoLength n)
      (clipLength stride (minSampleNFrames vsnf n) (videoLength n)))
    (hi : i < minSampleNFrames vsnf n) :
    linspaceVal startIdx
      (startIdx + clipLength stride (minSampleNFrames vsnf n) (videoLength n) - 1)
      (minSampleNFrames vsnf n) i ≤ n - 1 := by
  have hmle : minSampleNFrames vsnf n ≤ 8 * n / 10 := Nat.min_le_right _ _
  have hmv : minSampleNFrames vsnf n ≤ vsnf := Nat.min_le_left _ _
  have hvl1 : 1 ≤ videoLength n := by omega
  have hcl1 : 1 ≤ clipLength stride (minSampleNFrames vsnf n) (videoLength n) := by
    unfold clipLength
    exact Nat.le_min.mpr ⟨hvl1, by omega⟩
  have hab : startIdx ≤
      startIdx + clipLength stride (minSampleNFrames vsnf n) (videoLength n) - 1 := by
    omega
  have hlin := linspaceVal_le startIdx
    (startIdx + clipLength stride (minSampleNFrames vsnf n) (videoLength n) - 1)
    (minSampleNFrames vsnf n) i hab hi
  have hend : startIdx + clipLength stride (minSampleNFrames vsnf n) (videoLength n) - 1
      ≤ n - 1 := by
    unfold startIdxHigh at hhigh
    unfold startIdxLow at hlow
    unfold videoLength at *
    rcases max_choice (9 * n / 10 / 10)
        (9 * n / 10 - clipLength stride (minSampleNFrames vsnf n) (9 * n / 10)) with
      hmax | hmax <;> rw [hmax] at hhigh <;> omega
  omega

/-- Witness for C10 at a concrete video: 100 frames, stride 4, 16 sampled
frames, `start_idx` at the top of its range, last linspace entry. -/
theorem C10_linspace_in_bounds_witness :
    (0 < minSampleNFrames 16 100 ∧
      clipLength 4 (minSampleNFrames 16 100) (videoLength 100) ≤ videoLength 100 ∧
      16 ≤ videoLength 100 ∧
      startIdxLow (videoLength 100) ≤ 29 ∧
      29 ≤ startIdxHigh (videoLength 100)
        (clipLength 4 (minSampleNFrames 16 100) (videoLength 100)) ∧
      15 < minSampleNFrames 16 100) ∧
    linspaceVal 29 (29 + clipLength 4 (minSampleNFrames 16 100) (videoLength 100) - 1)
      (minSampleNFrames 16 100) 15 ≤ 100 - 1 :=
  ⟨⟨by decide, by decide, by decide, by decide, by decide, by decide⟩,
    C10_linspace_in_bounds 100 4 16 29 15 (by decide) (by decide) (by decide)
      (by decide) (by decide) (by decide)⟩

/-- The retry loop of `ImageVideoDataset.__getitem__`
(dataset_image_video.py:257-284).  `attempt idx` is everything inside the
`try` block at index `idx` (the data-type consistency check, `get_batch`,
and sample assembly), returning the assembled sample or the raised
exception's message.  On an exception the loop redraws
`idx = random.randint(0, len - 1)`; the fresh uniform draw at retry `k` is
modelled by `rnd k % len`.  The Python loop is unbounded; `fuel` bounds the
model, with `none` meaning the fuel ran out while every attempt raised —
the loop never returns a value by any other means, so an exception is
never propagated. -/
def getitemLoop {S : Type} (attempt : Nat → Except String S) (rnd : Nat → Nat)
    (len : Nat) : Nat → Nat → Option S
  | 0, _ => none
  | fuel + 1, idx =>
    match attempt idx with
    | Except.ok s => some s
    | Except.error _ => getitemLoop attempt rnd len fuel (rnd fuel % len)

/-- The indices tried by `getitemLoop`, in order (head = the caller's
index, the rest = redrawn indices). -/
def getitemTrace {S : Type} (attempt : Nat → Except String S) (rnd : Nat → Nat)
    (len : Nat) : Nat → Nat → List Nat
  | 0, idx => [idx]
  | fuel + 1, idx =>
    match attempt idx with
    | Except.ok _ => [idx]
    | Except.error _ => idx :: getitemTrace attempt rnd len fuel (rnd fuel % len)

lemma getitemTrace_mem_lt {S : Type} (attempt : Nat → Except String S)
    (rnd : Nat → Nat) (len : Nat) (hlen : 0 < len) :
    ∀ (fuel idx : Nat), idx < len →
      ∀ j ∈ getitemTrace attempt rnd len fuel idx, j < len := by
  intro fuel
  induction fuel with
  | zero =>
    intro idx hidx j hj
    simp [getitemTrace] at hj
    omega
  | succ k ih =>
    intro idx hidx j hj
    unfold getitemTrace at hj
    rcases h : attempt idx with e | s <;> rw [h] at hj
    · rcases List.mem_cons.mp hj with hj | hj
      · omega
      · exact ih (rnd k % len) (Nat.mod_lt _ hlen) j hj
    · simp at hj
      omega

/-- C4: `__getitem__` is fault-tolerant.  A value is returned only when
some attempt completes without raising, and it is that attempt's sample;
every redrawn index lies in `[0, len - 1]`.  (The model's `Option` result
reflects that an exception raised inside the `try` is always caught —
caught exceptions are printed and retried, never propagated.) -/
theorem C4_getitem_fault_tolerant {S : Type} (attempt : Nat → Except String S)
    (rnd : Nat → Nat) (len fuel idx0 : Nat) (hlen : 0 < len) :
    (∀ s, getitemLoop attempt rnd len fuel idx0 = some s →
      ∃ j, attempt j = Except.ok s) ∧
    (∀ j ∈ (getitemTrace attempt rnd len fuel idx0).tail, j < len) := by
  constructor
  · induction fuel generalizing idx0 with
    | zero => intro s h; cases h
    | succ k ih =>
      intro s h
      unfold getitemLoop at h
      rcases ha : attempt idx0 with e | s' <;> rw [ha] at h
      · exact ih (rnd k % len) s h
      · exact ⟨idx0, by rw [ha]; cases h; rfl⟩
  · cases fuel with
    | zero => intro j hj; simp [getitemTrace] at hj
    | succ k =>
      intro j hj
      unfold getitemTrace at hj
      rcases ha : attempt idx0 with e | s' <;> rw [ha] at hj
      · exact getitemTrace_mem_lt attempt rnd len hlen k (rnd k % len)
          (Nat.mod_lt _ hlen) j hj
      · simp at hj

/-- Witness for C4: a first attempt that raises, a redraw that succeeds. -/
theorem C4_getitem_fault_tolerant_witness :
    0 < 2 ∧
    ((∀ s, getitemLoop (fun i => if i = 0 then Except.error "corrupt sample"
        else Except.ok (37 : Nat)) (fun _ => 5) 2 3 0 = some s →
      ∃ j, (fun i => if i = 0 then Except.error "corrupt sample"
        else Except.ok (37 : Nat)) j = Except.ok s) ∧
    (∀ j ∈ (getitemTrace (fun i => if i = 0 then Except.error "corrupt sample"
        else Except.ok (37 : Nat)) (fun _ => 5) 2 3 0).tail, j < 2)) :=
  ⟨by decide,
    C4_getitem_fault_tolerant
      (fun i => if i = 0 then Except.error "corrupt sample" else Except.ok (37 : Nat))
      (fun _ => 5) 2 3 0 (by decide)⟩

/-- A Python value appearing in the tuples handed around between
`get_batch` and `__getitem__`. -/
inductive PyV
  | img (path : String) (transformed : Bool)
  | str (s : String)
  | pyNone
deriving DecidableEq

/-- The image branch of `ImageVideoDataset.get_batch`
(dataset_image_video.py:238-249) for a file that opens successfully:
returns the 3-tuple `(image, text, 'image')`.  `transformed` records
whether the image transforms ran (`not enable_bucket`), `dropText` the
realization of `random.random() < text_drop_ratio`. -/
def getBatchImage (path caption : String) (enableBucket dropText : Bool) : List PyV :=
  [PyV.img path (!enableBucket), PyV.str (if dropText then "" else caption),
    PyV.str "image"]

/-- The 8-name tuple unpacking in `__getitem__`
(dataset_image_video.py:265): `pixel_values, name, data_type,
vid_cache_path, text_cache_path, latent_idx, text_embedding,
text_emb_masks = self.get_batch(idx, data_info_local)`; unpacking a tuple
of any other arity raises `ValueError`. -/
def unpack8 (t : List PyV) :
    Except String (PyV × PyV × PyV × PyV × PyV × PyV × PyV × PyV) :=
  match t with
  | [a, b, c, d, e, f, g, h] => Except.ok (a, b, c, d, e, f, g, h)
  | _ => Except.error "ValueError: not enough values to unpack (expected 8)"

/-- The `try`-block of one `__getitem__` attempt on an image entry whose
file opens successfully: `get_batch` then the 8-name unpack. -/
def getitemImageAttempt (path caption : String) (enableBucket dropText : Bool) :
    Except String (PyV × PyV × PyV × PyV × PyV × PyV × PyV × PyV) :=
  unpack8 (getBatchImage path caption enableBucket dropText)

/-- C5 (code bug): `get_batch`'s image branch does produce the loaded and
transformed image, the (possibly dropped) caption and `'image'` — but as a
3-tuple, while `__getitem__` unpacks 8 values, so the attempt always
raises `ValueError` inside the `try` and the sample dict of the claim is
never assembled for an image entry. -/
theorem C5_image_unpack_bug :
    getBatchImage "a.jpg" "cap" false false =
      [PyV.img "a.jpg" true, PyV.str "cap", PyV.str "image"] ∧
    getitemImageAttempt "a.jpg" "cap" false false =
      Except.error "ValueError: not enough values to unpack (expected 8)" :=
  ⟨rfl, rfl⟩

/-- The constructor arguments of `ImageVideoSampler` that `__iter__` can
see (dataset_image_video.py:37-54); `dropLastFlag` models the `drop_last`
field, which `__iter__` never reads. -/
structure SamplerCfg where
  batchSize : Nat
  imageBatchSize : Nat
  dropLastFlag : Bool

/-- The two buckets `self.bucket = {'image': [], 'video': []}`. -/
structure BucketState where
  vids : List Nat
  imgs : List Nat
deriving DecidableEq

/-- `self.bucket[content_type].append(idx)` where `content_type =
self.dataset.dataset[idx].get('type', 'image')` (modelled by `ct idx`);
`none` models the `KeyError` raised for a content type other than
`'video'`/`'image'`. -/
def pushBucket (ct : Nat → String) (st : BucketState) (idx : Nat) : Option BucketState :=
  if ct idx = "video" then some { st with vids := st.vids ++ [idx] }
  else if ct idx = "image" then some { st with imgs := st.imgs ++ [idx] }
  else none

/-- One iteration of `ImageVideoSampler.__iter__`
(dataset_image_video.py:59-72): append the index to its bucket, then yield
and clear the video bucket if it reached `batch_size`, else yield and
clear the image bucket if it reached `image_batch_size`. -/
def samplerStep (cfg : SamplerCfg) (ct : Nat → String) (st : BucketState) (idx : Nat) :
    Option (BucketState × Option (List Nat)) :=
  match pushBucket ct st idx with
  | none => none
  | some st1 =>
    if st1.vids.length = cfg.batchSize then
      some ({ st1 with vids := [] }, some st1.vids)
    else if st1.imgs.length = cfg.imageBatchSize then
      some ({ st1 with imgs := [] }, some st1.imgs)
    else some (st1, none)

/-- `ImageVideoSampler.__iter__` run over the base sampler's index stream:
returns the yielded batches in order and the final bucket contents.  An
exception aborts the iteration, so nothing further is yielded; when the
base sampler is exhausted, `__iter__` simply ends — still-bucketed indices
are not yielded. -/
def samplerRun (cfg : SamplerCfg) (ct : Nat → String) :
    List Nat → BucketState → List (List Nat) × BucketState
  | [], st => ([], st)
  | idx :: rest, st =>
    match samplerStep cfg ct st idx with
    | none => ([], st)
    | some (st1, oy) =>
      let res := samplerRun cfg ct rest st1
      ((match oy with | some y => [y] | none => []) ++ res.1, res.2)

lemma samplerRun_yields_shape (cfg : SamplerCfg) (ct : Nat → String) :
    ∀ (l : List Nat) (st : BucketState),
      (∀ i ∈ st.vids, ct i = "video") → (∀ i ∈ st.imgs, ct i = "image") →
      ∀ y ∈ (samplerRun cfg ct l st).1,
        ((∀ i ∈ y, ct i = "video") ∧ y.length = cfg.batchSize) ∨
        ((∀ i ∈ y, ct i = "image") ∧ y.length = cfg.imageBatchSize) := by
  intro l
  induction l with
  | nil => intro st _ _ y hy; simp [samplerRun] at hy
  | cons idx rest ih =>
    intro st hv hi y hy
    by_cases h1 : ct idx = "video"
    · have hv1 : ∀ j ∈ st.vids ++ [idx], ct j = "video" := by
        intro j hj
        rcases List.mem_append.mp hj with hj | hj
        · exact hv j hj
        · simp at hj; rw [hj]; exact h1
      by_cases g1 : st.vids.length + 1 = cfg.batchSize
      · simp only [samplerRun, samplerStep, pushBucket, if_pos h1,
          List.length_append, List.length_cons, List.length_nil, if_pos g1] at hy
        rcases List.mem_append.mp hy with hy | hy
        · simp at hy
          subst hy
          exact Or.inl ⟨hv1, by simp [g1.symm]⟩
        · exact ih { vids := [], imgs := st.imgs } (by simp) hi y hy
      · by_cases g2 : st.imgs.length = cfg.imageBatchSize
        · simp only [samplerRun, samplerStep, pushBucket, if_pos h1,
            List.length_append, List.length_cons, List.length_nil, if_neg g1,
            if_pos g2] at hy
          rcases List.mem_append.mp hy with hy | hy
          · simp at hy
            subst hy
            exact Or.inr ⟨hi, g2⟩
          · exact ih { vids := st.vids ++ [idx], imgs := [] } hv1 (by simp) y hy
        · simp only [samplerRun, samplerStep, pushBucket, if_pos h1,
            List.length_append, List.length_cons, List.length_nil, if_neg g1,
            if_neg g2] at hy
          simp only [List.nil_append] at hy
          exact ih { vids := st.vids ++ [idx], imgs := st.imgs } hv1 hi y hy
    · by_cases h2 : ct idx = "image"
      · have hi1 : ∀ j ∈ st.imgs ++ [idx], ct j = "image" := by
          intro j hj
          rcases List.mem_append.mp hj with hj | hj
          · exact hi j hj
          · simp at hj; rw [hj]; exact h2
        by_cases g1 : st.vids.length = cfg.batchSize
        · simp only [samplerRun, samplerStep, pushBucket, if_neg h1, if_pos h2,
            if_pos g1] at hy
          rcases List.mem_append.mp hy with hy | hy
          · simp at hy
            subst hy
            exact Or.inl ⟨hv, g1⟩
          · exact ih { vids := [], imgs := st.imgs ++ [idx] } (by simp) hi1 y hy
        · by_cases g2 : st.imgs.length + 1 = cfg.imageBatchSize
          · simp only [samplerRun, samplerStep, pushBucket, if_neg h1, if_pos h2,
              List.length_append, List.length_cons, List.length_nil, if_neg g1,
              if_pos g2] at hy
            rcases List.mem_append.mp hy with hy | hy
            · simp at hy
              subst hy
              exact Or.inr ⟨hi1, by simp [g2.symm]⟩
            · exact ih { vids := st.vids, imgs := [] } hv (by simp) y hy
          · simp only [samplerRun, samplerStep, pushBucket, if_neg h1, if_pos h2,
              List.length_append, List.length_cons, List.length_nil, if_neg g1,
              if_neg g2] at hy
            simp only [List.nil_append] at hy
            exact ih { vids := st.vids, imgs := st.imgs ++ [idx] } hv hi1 y hy
      · simp only [samplerRun, samplerStep, pushBucket, if_neg h1, if_neg h2] at hy
        simp at hy

lemma samplerRun_count (cfg : SamplerCfg) (ct : Nat → String) :
    ∀ (l : List Nat) (st : BucketState) (v : Nat),
      (∀ i ∈ l, ct i = "video" ∨ ct i = "image") →
      (samplerRun cfg ct l st).1.flatten.count v +
        (samplerRun cfg ct l st).2.vids.count v +
        (samplerRun cfg ct l st).2.imgs.count v =
      st.vids.count v + st.imgs.count v + l.count v := by
  intro l
  induction l with
  | nil => intro st v _; simp [samplerRun]
  | cons idx rest ih =>
    intro st v hty
    have hrest : ∀ i ∈ rest, ct i = "video" ∨ ct i = "image" :=
      fun i h => hty i (List.mem_cons_of_mem _ h)
    rcases hty idx (List.mem_cons_self idx rest) with h1 | h1
    · by_cases g1 : st.vids.length + 1 = cfg.batchSize
      · have H := ih { vids := [], imgs := st.imgs } v hrest
        simp only [samplerRun, samplerStep, pushBucket, if_pos h1, List.length_append,
          List.length_cons, List.length_nil, if_pos g1, List.singleton_append, List.flatten_cons,
          List.count_append, List.count_cons, List.count_nil] at H ⊢
        omega
      · by_cases g2 : st.imgs.length = cfg.imageBatchSize
        · have H := ih { vids := st.vids ++ [idx], imgs := [] } v hrest
          simp only [samplerRun, samplerStep, pushBucket, if_pos h1, List.length_append,
            List.length_cons, List.length_nil, if_neg g1, if_pos g2, List.singleton_append, List.flatten_cons,
            List.count_append, List.count_cons, List.count_nil] at H ⊢
          omega
        · have H := ih { vids := st.vids ++ [idx], imgs := st.imgs } v hrest
          simp only [samplerRun, samplerStep, pushBucket, if_pos h1, List.length_append,
            List.length_cons, List.length_nil, if_neg g1, if_neg g2, List.nil_append,
            List.count_append, List.count_cons, List.count_nil] at H ⊢
          omega
    · have h1' : ¬ ct idx = "video" := by
        rw [h1]; decide
      by_cases g1 : st.vids.length = cfg.batchSize
      · have H := ih { vids := [], imgs := st.imgs ++ [idx] } v hrest
        simp only [samplerRun, samplerStep, pushBucket, if_neg h1', if_pos h1,
          if_pos g1, List.singleton_append, List.flatten_cons, List.count_append,
          List.count_cons, List.count_nil] at H ⊢
        omega
      · by_cases g2 : st.imgs.length + 1 = cfg.imageBatchSize
        · have H := ih { vids := st.vids, imgs := [] } v hrest
          simp only [samplerRun, samplerStep, pushBucket, if_neg h1', if_pos h1,
            List.length_append, List.length_cons, List.length_nil, if_neg g1,
            if_pos g2, List.singleton_append, List.flatten_cons, List.count_append,
            List.count_cons, List.count_nil] at H ⊢
          omega
        · have H := ih { vids := st.vids, imgs := st.imgs ++ [idx] } v hrest
          simp only [samplerRun, samplerStep, pushBucket, if_neg h1', if_pos h1,
            List.length_append, List.length_cons, List.length_nil, if_neg g1,
            if_neg g2, List.nil_append, List.count_append, List.count_cons,
            List.count_nil] at H ⊢
          omega

lemma samplerRun_dropLast_irrelevant (bs ibs : Nat) (d1 d2 : Bool) (ct : Nat → String) :
    ∀ (l : List Nat) (st : BucketState),
      samplerRun ⟨bs, ibs, d1⟩ ct l st = samplerRun ⟨bs, ibs, d2⟩ ct l st := by
  intro l
  induction l with
  | nil => intro st; rfl
  | cons idx rest ih =>
    intro st
    simp only [samplerRun]
    have hstep : samplerStep ⟨bs, ibs, d1⟩ ct st idx =
        samplerStep ⟨bs, ibs, d2⟩ ct st idx := rfl
    rw [hstep]
    cases samplerStep ⟨bs, ibs, d2⟩ ct st idx with
    | none => rfl
    | some p =>
      obtain ⟨st1, oy⟩ := p
      simp only [ih st1]

/-- C6: every batch yielded by `ImageVideoSampler.__iter__` is bucketed:
its indices all refer to entries of one content type, a video batch has
exactly `batch_size` indices and an image batch exactly
`image_batch_size`; the yielded batches and final buckets are identical
for both values of `drop_last`; and the yielded batches together with the
indices still sitting in the buckets at exhaustion are exactly a
permutation of the base sampler's stream — so still-bucketed indices are
never yielded. -/
theorem C6_sampler_bucketed (ct : Nat → String) (bs ibs : Nat) (d1 d2 : Bool)
    (l : List Nat)
    (hty : ∀ i ∈ l, ct i = "video" ∨ ct i = "image") :
    (∀ y ∈ (samplerRun ⟨bs, ibs, d1⟩ ct l ⟨[], []⟩).1,
      ((∀ i ∈ y, ct i = "video") ∧ y.length = bs) ∨
      ((∀ i ∈ y, ct i = "image") ∧ y.length = ibs)) ∧
    samplerRun ⟨bs, ibs, d1⟩ ct l ⟨[], []⟩ = samplerRun ⟨bs, ibs, d2⟩ ct l ⟨[], []⟩ ∧
    ((samplerRun ⟨bs, ibs, d1⟩ ct l ⟨[], []⟩).1.flatten ++
      (samplerRun ⟨bs, ibs, d1⟩ ct l ⟨[], []⟩).2.vids ++
      (samplerRun ⟨bs, ibs, d1⟩ ct l ⟨[], []⟩).2.imgs).Perm l := by
  refine ⟨?_, samplerRun_dropLast_irrelevant bs ibs d1 d2 ct l ⟨[], []⟩, ?_⟩
  · exact samplerRun_yields_shape ⟨bs, ibs, d1⟩ ct l ⟨[], []⟩
      (by intro i hi; simp at hi) (by intro i hi; simp at hi)
  · rw [List.perm_iff_count]
    intro v
    have H := samplerRun_count ⟨bs, ibs, d1⟩ ct l ⟨[], []⟩ v hty
    simp only [List.count_nil] at H
    simp only [List.count_append]
    omega

/-- Witness for C6 on a concrete index stream with mixed types. -/
theorem C6_sampler_bucketed_witness :
    (∀ i ∈ [0, 1, 2, 3, 4],
      (fun j => if j % 2 = 0 then "video" else "image") i = "video" ∨
      (fun j => if j % 2 = 0 then "video" else "image") i = "image") ∧
    ((∀ y ∈ (samplerRun ⟨2, 1, false⟩
        (fun j => if j % 2 = 0 then "video" else "image") [0, 1, 2, 3, 4] ⟨[], []⟩).1,
      ((∀ i ∈ y, (fun j => if j % 2 = 0 then "video" else "image") i = "video") ∧
        y.length = 2) ∨
      ((∀ i ∈ y, (fun j => if j % 2 = 0 then "video" else "image") i = "image") ∧
        y.length = 1)) ∧
    samplerRun ⟨2, 1, false⟩ (fun j => if j % 2 = 0 then "video" else "image")
        [0, 1, 2, 3, 4] ⟨[], []⟩ =
      samplerRun ⟨2, 1, true⟩ (fun j => if j % 2 = 0 then "video" else "image")
        [0, 1, 2, 3, 4] ⟨[], []⟩ ∧
    ((samplerRun ⟨2, 1, false⟩ (fun j => if j % 2 = 0 then "video" else "image")
        [0, 1, 2, 3, 4] ⟨[], []⟩).1.flatten ++
      (samplerRun ⟨2, 1, false⟩ (fun j => if j % 2 = 0 then "video" else "image")
        [0, 1, 2, 3, 4] ⟨[], []⟩).2.vids ++
      (samplerRun ⟨2, 1, false⟩ (fun j => if j % 2 = 0 then "video" else "image")
        [0, 1, 2, 3, 4] ⟨[], []⟩).2.imgs).Perm [0, 1, 2, 3, 4]) :=
  ⟨by decide,
    C6_sampler_bucketed (fun j => if j % 2 = 0 then "video" else "image") 2 1
      false true [0, 1, 2, 3, 4] (by decide)⟩

end Everlyn
